import Mathlib

/-!
A shallow embedding of the note service in `src/main.rs`: an in-memory list of
notes guarded by one lock, a `u64` id counter, and four HTTP handlers
(`list_notes`, `create_note`, `update_note`, `remove_note`) dispatched by a
warp route cascade.  Handlers are modelled as pure functions from the server
state (note list plus counter) to a new state and an HTTP response; machine
integers are `Nat` with explicit reduction modulo `2 ^ 64` where the `u64`
counter can wrap.
-/

namespace NoteService

/-- The size of Rust's `u64` value space. -/
def u64Size : Nat := 2 ^ 64

/-- `struct NoteId(u64)` (main.rs line 12).  The wrapper is transparent
(`PartialEq` compares the wrapped values), so a `NoteId` is modelled as the
`Nat` it wraps; every id the program produces or parses is below `u64Size`. -/
abbrev NoteId := Nat

/-- The digit characters of a path segment after Rust's `from_str_radix` has
consumed an optional leading `'+'` sign (a `'-'` is not consumed for unsigned
types and will fail the digit loop). -/
def stripPlus (s : String) : List Char :=
  match s.data with
  | '+' :: rest => rest
  | cs => cs

/-- One step of the `from_str_radix` accumulation loop: multiply by the radix
and add the next digit, failing on a non-digit character or on `u64`
overflow (`checked_mul` / `checked_add`). -/
def pushDigit (acc : Nat) (c : Char) : Option Nat :=
  if c.isDigit then
    if acc * 10 + (c.toNat - 48) < u64Size then some (acc * 10 + (c.toNat - 48))
    else none
  else none

/-- The digit loop of `u64::from_str_radix(s, 10)`. -/
def parseDigits (acc : Nat) : List Char → Option Nat
  | [] => some acc
  | c :: cs =>
    match pushDigit acc c with
    | some acc1 => parseDigits acc1 cs
    | none => none

/-- `u64::from_str`: an optional leading `'+'`, then a nonempty run of decimal
digits whose value fits in a `u64`; empty or sign-only input is an error. -/
def u64FromStr (s : String) : Option Nat :=
  let ds := stripPlus s
  if ds.isEmpty then none else parseDigits 0 ds

/-- `NoteId::from_str` (main.rs lines 14-24): succeeds exactly when
`u64::from_str` does. -/
def NoteId.fromStr (s : String) : Option NoteId := u64FromStr s

/-- `struct NoteResponse` (lines 26-31): the serialized form of one note. -/
structure NoteResponse where
  id : NoteId
  title : String
  content : String
deriving DecidableEq, Repr

/-- `struct CreateNoteRequest` (lines 36-41): `title` is required and
`content` carries `#[serde(default)]`. -/
structure CreateNoteRequest where
  title : String
  content : String
deriving DecidableEq, Repr

/-- Decoding a create body whose `content` field may be absent:
`#[serde(default)]` substitutes `String::default()`, the empty string. -/
def CreateNoteRequest.ofParts (title : String) (content? : Option String) :
    CreateNoteRequest :=
  ⟨title, content?.getD ""⟩

/-- `struct UpdateNoteRequest` (lines 43-47): both fields optional. -/
structure UpdateNoteRequest where
  title : Option String
  content : Option String
deriving DecidableEq, Repr

/-- `struct Note` (lines 49-54): one stored note. -/
structure Note where
  id : NoteId
  title : String
  content : String
deriving DecidableEq, Repr

/-- The shared state: the `Vec<Note>` behind the mutex (line 56) together with
the `NEXT_NOTE_ID` atomic counter (line 58).  The counter is a `u64`, so the
model keeps it below `u64Size` and `fetch_add` wraps. -/
structure ServerState where
  notes : List Note
  nextId : Nat
deriving DecidableEq, Repr

/-- Process start: empty database (line 129), `NEXT_NOTE_ID` starting at 1
(line 58). -/
def initState : ServerState := ⟨[], 1⟩

/-- JSON response bodies the handlers produce. -/
inductive ResponseBody where
  | notes (l : List NoteResponse)
  | note (n : NoteResponse)
deriving DecidableEq, Repr

/-- An HTTP response: status code plus optional JSON body. -/
structure Response where
  status : Nat
  body : Option ResponseBody
deriving DecidableEq, Repr

/-- `list_notes` (lines 60-73): serialize every stored note, in store order,
into a 200 response; the store is only read. -/
def list_notes (s : ServerState) : ServerState × Response :=
  (s, ⟨200, some (ResponseBody.notes (s.notes.map fun n => ⟨n.id, n.title, n.content⟩))⟩)

/-- `NEXT_NOTE_ID.fetch_add(1, Relaxed)` (line 77): return the old counter
value and store the wrapped successor. -/
def fetchAdd1 (c : Nat) : Nat × Nat := (c, (c + 1) % u64Size)

/-- `create_note` (lines 75-91): allocate the next id, push the new note at
the end of the store, answer 201 with the created note. -/
def create_note (s : ServerState) (req : CreateNoteRequest) : ServerState × Response :=
  let newNote : Note := ⟨(fetchAdd1 s.nextId).1, req.title, req.content⟩
  (⟨s.notes ++ [newNote], (fetchAdd1 s.nextId).2⟩,
   ⟨201, some (ResponseBody.note ⟨newNote.id, newNote.title, newNote.content⟩)⟩)

/-- The field assignments of `update_note` (lines 105-110): overwrite exactly
the fields the request supplies. -/
def applyUpdate (req : UpdateNoteRequest) (n : Note) : Note :=
  let n1 : Note :=
    match req.title with
    | some t => ⟨n.id, t, n.content⟩
    | none => n
  match req.content with
  | some c => ⟨n1.id, n1.title, c⟩
  | none => n1

/-- The linear scan of `update_note` (lines 99-110): find the first note with
the given id (`iter().position`), mutate it in place; `none` when no note
matches. -/
def updateScan (id : NoteId) (req : UpdateNoteRequest) : List Note → Option (List Note)
  | [] => none
  | n :: ns =>
    if n.id = id then some (applyUpdate req n :: ns)
    else (updateScan id req ns).map (n :: ·)

/-- `update_note` (lines 93-113): a body with both fields absent is rejected
with 422 before the store is touched; otherwise the store is scanned, a
missing id answers 404, and a found note has exactly the supplied fields
replaced, answering 204. -/
def update_note (id : NoteId) (s : ServerState) (req : UpdateNoteRequest) :
    ServerState × Response :=
  if req.title = none ∧ req.content = none then
    (s, ⟨422, none⟩)
  else
    match updateScan id req s.notes with
    | none => (s, ⟨404, none⟩)
    | some notes1 => (⟨notes1, s.nextId⟩, ⟨204, none⟩)

/-- `remove_note` (lines 115-125): `retain` keeps the notes whose id differs,
and the length comparison decides between 204 and 404. -/
def remove_note (id : NoteId) (s : ServerState) : ServerState × Response :=
  if (s.notes.filter fun n => n.id ≠ id).length ≠ s.notes.length then
    (⟨s.notes.filter fun n => n.id ≠ id, s.nextId⟩, ⟨204, none⟩)
  else (s, ⟨404, none⟩)

/-- HTTP methods the router distinguishes. -/
inductive Method where
  | get | post | patch | delete
deriving DecidableEq, Repr

/-- A request body after JSON decoding. -/
inductive RequestBody where
  | empty
  | createBody (r : CreateNoteRequest)
  | updateBody (r : UpdateNoteRequest)
deriving DecidableEq, Repr

/-- An HTTP request: method, path segments, decoded body. -/
structure Request where
  method : Method
  path : List String
  body : RequestBody
deriving DecidableEq, Repr

/-- The warp route cascade (lines 131-161): `GET /notes`, `POST /notes`,
`PATCH /notes/{id}`, `DELETE /notes/{id}`, then `not_found_handler`
(line 155).  `path!("notes" / NoteId)` matches only when the id segment
parses via `NoteId::from_str`; a request matched by no route reaches the
catch-all handler and is answered 404 with no body. -/
def route (s : ServerState) (req : Request) : ServerState × Response :=
  match req.method, req.path, req.body with
  | Method.get, ["notes"], _ => list_notes s
  | Method.post, ["notes"], RequestBody.createBody r => create_note s r
  | Method.patch, ["notes", seg], RequestBody.updateBody r =>
    (match NoteId.fromStr seg with
     | some id => update_note id s r
     | none => (s, ⟨404, none⟩))
  | Method.delete, ["notes", seg], _ =>
    (match NoteId.fromStr seg with
     | some id => remove_note id s
     | none => (s, ⟨404, none⟩))
  | _, _, _ => (s, ⟨404, none⟩)

/-- One store operation, as reached through the routes. -/
inductive Op where
  | create (req : CreateNoteRequest)
  | update (id : NoteId) (req : UpdateNoteRequest)
  | delete (id : NoteId)
deriving DecidableEq, Repr

/-- The state transition of one operation. -/
def applyOp (s : ServerState) : Op → ServerState
  | Op.create req => (create_note s req).1
  | Op.update id req => (update_note id s req).1
  | Op.delete id => (remove_note id s).1

/-- Run a sequence of operations. -/
def runTrace (s : ServerState) : List Op → ServerState
  | [] => s
  | op :: ops => runTrace (applyOp s op) ops

/-- Id events: which id a create assigned, which id a successful delete
removed. -/
inductive Event where
  | created (id : NoteId)
  | deleted (id : NoteId)
deriving DecidableEq, Repr

/-- The id events of one operation: a create records the id it assigns
(the counter value before the `fetch_add`); a delete records its id exactly
when it removes something. -/
def opEvents (s : ServerState) : Op → List Event
  | Op.create _ => [Event.created s.nextId]
  | Op.update _ _ => []
  | Op.delete id =>
    if (s.notes.filter fun n => n.id ≠ id).length ≠ s.notes.length
    then [Event.deleted id] else []

/-- The id events of a whole trace. -/
def events (s : ServerState) : List Op → List Event
  | [] => []
  | op :: ops => opEvents s op ++ events (applyOp s op) ops

/-- How many creates a trace contains. -/
def countCreates : List Op → Nat
  | [] => 0
  | Op.create _ :: ops => countCreates ops + 1
  | _ :: ops => countCreates ops

/-- The ids assigned by the creates of an event list, in order. -/
def createdIds (evs : List Event) : List NoteId :=
  evs.filterMap fun e =>
    match e with
    | Event.created i => some i
    | Event.deleted _ => none

/-- Spec-side reading of "a valid non-negative integer" for a path segment:
a nonempty string of decimal digits. -/
def isNonNegIntegerString (s : String) : Bool :=
  !s.data.isEmpty && s.data.all Char.isDigit

/-- The numeric value of a digit string. -/
def digitsToNat (ds : List Char) : Nat :=
  ds.foldl (fun a c => a * 10 + (c.toNat - 48)) 0

/-- The path segments `u64::from_str` accepts: an optional leading `'+'`,
then a nonempty run of decimal digits whose value fits in a `u64`. -/
def isU64Segment (s : String) : Bool :=
  !(stripPlus s).isEmpty && (stripPlus s).all Char.isDigit &&
    digitsToNat (stripPlus s) < u64Size

/-! ### Basic facts -/

theorem u64Size_pos : 0 < u64Size := by
  unfold u64Size
  positivity

theorem one_lt_u64Size : 1 < u64Size := by
  unfold u64Size
  norm_num

/-- The events of a pure sequence of creates, in closed form: starting from a
counter value below `u64Size`, the `k`-th create records the id
`(nextId + k) % u64Size`. -/
theorem events_creates :
    ∀ (reqs : List CreateNoteRequest) (s : ServerState), s.nextId < u64Size →
      events s (reqs.map Op.create) =
        (List.range reqs.length).map fun k => Event.created ((s.nextId + k) % u64Size)
  | [], s, _ => by simp [events]
  | r :: rs, s, h => by
    have hnext : ((create_note s r).1).nextId = (s.nextId + 1) % u64Size := rfl
    have hlt : ((create_note s r).1).nextId < u64Size := by
      rw [hnext]
      exact Nat.mod_lt _ u64Size_pos
    have ih := events_creates rs ((create_note s r).1) hlt
    rw [hnext] at ih
    simp only [List.map_cons, events, opEvents, List.length_cons,
      List.range_succ_eq_map, List.map_map, List.singleton_append]
    congr 1
    · rw [Nat.add_zero, Nat.mod_eq_of_lt h]
    · rw [show events (applyOp s (Op.create r)) (rs.map Op.create) =
          events ((create_note s r).1) (rs.map Op.create) from rfl, ih]
      apply List.map_congr_left
      intro k _
      simp only [Function.comp_apply, Nat.mod_add_mod, Nat.succ_eq_add_one]
      rw [show s.nextId + 1 + k = s.nextId + (k + 1) by omega]

/-- Collecting the created ids of a pure create-event list. -/
theorem createdIds_map_created (f : Nat → NoteId) (l : List Nat) :
    createdIds (l.map fun k => Event.created (f k)) = l.map f := by
  unfold createdIds
  rw [List.filterMap_map]
  exact List.filterMap_eq_map f ▸ rfl

/-! ### C1: ids of a create sequence -/

/-- Claim C1, amended: for every sequence of fewer than `2 ^ 64` Create
operations starting from process start, the assigned ids are strictly
increasing and pairwise distinct, and the first note created receives id 1.
(The bound is forced by the wraparound of the `u64` counter, see
`create_ids_wrap_counterexample`.) -/
theorem create_ids_strictly_increasing (reqs : List CreateNoteRequest)
    (h : reqs.length < u64Size) :
    (createdIds (events initState (reqs.map Op.create))).Pairwise (· < ·) ∧
    (createdIds (events initState (reqs.map Op.create))).Pairwise (· ≠ ·) ∧
    (reqs ≠ [] → (createdIds (events initState (reqs.map Op.create))).head? = some 1) := by
  have hinit : initState.nextId < u64Size := one_lt_u64Size
  rw [events_creates reqs initState hinit, createdIds_map_created]
  have hids : ∀ k ∈ List.range reqs.length, (initState.nextId + k) % u64Size = 1 + k := by
    intro k hk
    rw [List.mem_range] at hk
    have hlt : initState.nextId + k < u64Size := by
      show 1 + k < u64Size
      omega
    exact Nat.mod_eq_of_lt hlt
  rw [List.map_congr_left hids]
  refine ⟨?_, ?_, ?_⟩
  · exact List.pairwise_map.mpr
      ((List.pairwise_lt_range _).imp fun hab => Nat.add_lt_add_left hab 1)
  · exact List.pairwise_map.mpr
      ((List.pairwise_lt_range _).imp fun hab => Nat.ne_of_lt (Nat.add_lt_add_left hab 1))
  · intro hne
    obtain ⟨m, hm⟩ := Nat.exists_eq_succ_of_ne_zero
      (fun h0 => hne (List.length_eq_zero.mp h0))
    rw [hm, List.range_succ_eq_map]
    simp

/-- Witness for C1: three creates from process start get ids 1, 2, 3. -/
theorem create_ids_strictly_increasing_witness :
    ([⟨"Lorem Ipsum", ""⟩, ⟨"b", "c"⟩, ⟨"d", "e"⟩] : List CreateNoteRequest).length < u64Size ∧
    ((createdIds (events initState
        (([⟨"Lorem Ipsum", ""⟩, ⟨"b", "c"⟩, ⟨"d", "e"⟩] :
          List CreateNoteRequest).map Op.create))).Pairwise (· < ·) ∧
      (createdIds (events initState
        (([⟨"Lorem Ipsum", ""⟩, ⟨"b", "c"⟩, ⟨"d", "e"⟩] :
          List CreateNoteRequest).map Op.create))).Pairwise (· ≠ ·) ∧
      (([⟨"Lorem Ipsum", ""⟩, ⟨"b", "c"⟩, ⟨"d", "e"⟩] : List CreateNoteRequest) ≠ [] →
        (createdIds (events initState
          (([⟨"Lorem Ipsum", ""⟩, ⟨"b", "c"⟩, ⟨"d", "e"⟩] :
            List CreateNoteRequest).map Op.create))).head? = some 1)) :=
  ⟨by decide, create_ids_strictly_increasing _ (by decide)⟩

/-- Counterexample to claim C1 as stated: after `2 ^ 64` creates the `u64`
counter has wrapped, so the sequence of assigned ids
`1, 2, …, 2 ^ 64 - 1, 0` is not strictly increasing. -/
theorem create_ids_wrap_counterexample :
    ¬ (createdIds (events initState
        ((List.replicate u64Size (⟨"t", ""⟩ : CreateNoteRequest)).map
          Op.create))).Pairwise (· < ·) := by
  intro hpair
  have h2 : (2 : Nat) ≤ u64Size := one_lt_u64Size
  rw [events_creates _ initState one_lt_u64Size, createdIds_map_created,
    List.length_replicate] at hpair
  have hlen : ((List.range u64Size).map
      fun k => (initState.nextId + k) % u64Size).length = u64Size := by simp
  have hij := List.pairwise_iff_getElem.mp hpair (u64Size - 2) (u64Size - 1)
    (by rw [hlen]; omega) (by rw [hlen]; omega) (by omega)
  rw [List.getElem_map, List.getElem_map, List.getElem_range, List.getElem_range] at hij
  have e1 : (initState.nextId + (u64Size - 2)) % u64Size = u64Size - 1 := by
    show (1 + (u64Size - 2)) % u64Size = u64Size - 1
    rw [show 1 + (u64Size - 2) = u64Size - 1 by omega]
    exact Nat.mod_eq_of_lt (by omega)
  have e2 : (initState.nextId + (u64Size - 1)) % u64Size = 0 := by
    show (1 + (u64Size - 1)) % u64Size = 0
    rw [show 1 + (u64Size - 1) = u64Size by omega]
    exact Nat.mod_self u64Size
  rw [e1, e2] at hij
  exact absurd hij (Nat.not_lt_zero _)

/-! ### C2: store invariant and id freshness -/

/-- The store/counter invariant after `c` creates, while the counter has not
wrapped: every stored id lies in `[1, c]`, stored ids are pairwise distinct,
and `NEXT_NOTE_ID` holds `(1 + c) % u64Size`. -/
structure Inv (c : Nat) (s : ServerState) : Prop where
  id_pos : ∀ n ∈ s.notes, 1 ≤ n.id
  id_le : ∀ n ∈ s.notes, n.id ≤ c
  nodup : (s.notes.map Note.id).Nodup
  next_eq : s.nextId = (1 + c) % u64Size

theorem inv_init : Inv 0 initState := by
  refine ⟨by simp [initState], by simp [initState], by simp [initState], ?_⟩
  show (1 : Nat) = (1 + 0) % u64Size
  rw [Nat.add_zero, Nat.mod_eq_of_lt one_lt_u64Size]

/-- Transfer of the invariant along a step that keeps the id list and the
counter. -/
theorem inv_of_map_id_eq {c : Nat} {s s1 : ServerState} (inv : Inv c s)
    (hids : s1.notes.map Note.id = s.notes.map Note.id)
    (hnext : s1.nextId = s.nextId) : Inv c s1 := by
  have hmem : ∀ n ∈ s1.notes, ∃ m ∈ s.notes, m.id = n.id := by
    intro n hn
    have hn2 : n.id ∈ s.notes.map Note.id := hids ▸ List.mem_map_of_mem Note.id hn
    obtain ⟨m, hm, hmid⟩ := List.mem_map.mp hn2
    exact ⟨m, hm, hmid⟩
  refine ⟨?_, ?_, ?_, ?_⟩
  · intro n hn
    obtain ⟨m, hm, hmid⟩ := hmem n hn
    exact hmid ▸ inv.id_pos m hm
  · intro n hn
    obtain ⟨m, hm, hmid⟩ := hmem n hn
    exact hmid ▸ inv.id_le m hm
  · rw [hids]
    exact inv.nodup
  · rw [hnext]
    exact inv.next_eq

/-- `applyUpdate` in one equation: the id survives, each field is replaced
exactly when the request supplies it. -/
theorem applyUpdate_eq (req : UpdateNoteRequest) (n : Note) :
    applyUpdate req n = ⟨n.id, req.title.getD n.title, req.content.getD n.content⟩ := by
  rcases req with ⟨_ | t, _ | c⟩ <;> rfl

/-- The update scan never changes the list of ids. -/
theorem updateScan_map_id (id : NoteId) (req : UpdateNoteRequest) :
    ∀ (l l1 : List Note), updateScan id req l = some l1 →
      l1.map Note.id = l.map Note.id
  | [], _, h => by simp [updateScan] at h
  | n :: ns, l1, h => by
    by_cases hn : n.id = id
    · simp only [updateScan, if_pos hn, Option.some.injEq] at h
      subst h
      simp [applyUpdate_eq]
    · simp only [updateScan, if_neg hn] at h
      obtain ⟨l2, hl2, rfl⟩ := Option.map_eq_some'.mp h
      simp [updateScan_map_id id req ns l2 hl2]

/-- `update_note` never changes the stored ids or the counter. -/
theorem update_note_state (id : NoteId) (s : ServerState) (req : UpdateNoteRequest) :
    ((update_note id s req).1).notes.map Note.id = s.notes.map Note.id ∧
    ((update_note id s req).1).nextId = s.nextId := by
  unfold update_note
  split
  · exact ⟨rfl, rfl⟩
  · split
    · exact ⟨rfl, rfl⟩
    · next l1 heq => exact ⟨updateScan_map_id id req s.notes l1 heq, rfl⟩

/-- `remove_note` either filters the store or leaves it alone. -/
theorem remove_note_state (id : NoteId) (s : ServerState) :
    (remove_note id s).1 = ⟨s.notes.filter fun n => n.id ≠ id, s.nextId⟩ ∨
    (remove_note id s).1 = s := by
  unfold remove_note
  split
  · exact Or.inl rfl
  · exact Or.inr rfl

theorem inv_delete {c : Nat} {s : ServerState} (inv : Inv c s) (id : NoteId) :
    Inv c ((remove_note id s).1) := by
  rcases remove_note_state id s with h | h <;> rw [h]
  · refine ⟨?_, ?_, ?_, inv.next_eq⟩
    · intro n hn
      exact inv.id_pos n (List.mem_filter.mp hn).1
    · intro n hn
      exact inv.id_le n (List.mem_filter.mp hn).1
    · exact List.Nodup.sublist
        (List.Sublist.map Note.id (List.filter_sublist s.notes)) inv.nodup
  · exact inv

theorem inv_create {c : Nat} {s : ServerState} (inv : Inv c s)
    (req : CreateNoteRequest) (hc : 1 + c < u64Size) :
    Inv (c + 1) ((create_note s req).1) := by
  have hnid : s.nextId = 1 + c := by rw [inv.next_eq, Nat.mod_eq_of_lt hc]
  have hnotes : ((create_note s req).1).notes =
      s.notes ++ [⟨s.nextId, req.title, req.content⟩] := rfl
  refine ⟨?_, ?_, ?_, ?_⟩
  · intro n hn
    rw [hnotes] at hn
    rcases List.mem_append.mp hn with h | h
    · exact inv.id_pos n h
    · rw [List.mem_singleton] at h
      subst h
      show 1 ≤ s.nextId
      rw [hnid]
      omega
  · intro n hn
    rw [hnotes] at hn
    rcases List.mem_append.mp hn with h | h
    · exact Nat.le_succ_of_le (inv.id_le n h)
    · rw [List.mem_singleton] at h
      subst h
      show s.nextId ≤ c + 1
      rw [hnid]
      omega
  · rw [hnotes, List.map_append]
    refine List.nodup_append.mpr ⟨inv.nodup, by simp, ?_⟩
    intro a ha hb
    simp only [List.map_cons, List.map_nil, List.mem_singleton] at hb
    obtain ⟨m, hm, hmid⟩ := List.mem_map.mp ha
    have hle : a ≤ c := hmid ▸ inv.id_le m hm
    rw [hb] at hle
    show False
    rw [hnid] at hle
    have hle2 : (1 + c : Nat) ≤ c := hle
    omega
  · show (s.nextId + 1) % u64Size = (1 + (c + 1)) % u64Size
    rw [hnid, show 1 + c + 1 = 1 + (c + 1) by omega]

/-- A length change of the `retain` means some note carried the deleted id. -/
theorem exists_id_of_filter_length_ne {l : List Note} {i : NoteId}
    (h : (l.filter fun n => n.id ≠ i).length ≠ l.length) : ∃ n ∈ l, n.id = i := by
  have hlt : (l.filter fun n => n.id ≠ i).length < l.length :=
    Nat.lt_of_le_of_ne (List.Sublist.length_le (List.filter_sublist l)) h
  obtain ⟨x, hx, hpx⟩ := List.length_filter_lt_length_iff_exists.mp hlt
  refine ⟨x, hx, ?_⟩
  by_contra hne
  exact hpx (decide_eq_true hne)

/-- Well-formedness of an event trace relative to the number `c` of creates
seen so far: a create event hands out the fresh id `c + 1`; a delete event
removes an id that was already allocated. -/
def GoodEvents : Nat → List Event → Prop
  | _, [] => True
  | c, Event.created a :: rest => a = c + 1 ∧ GoodEvents (c + 1) rest
  | c, Event.deleted i :: rest => 1 ≤ i ∧ i ≤ c ∧ GoodEvents c rest

/-- Every trace with fewer creates than the counter can count preserves the
invariant and produces a well-formed event list. -/
theorem runTrace_inv :
    ∀ (ops : List Op) (s : ServerState) (c : Nat), Inv c s →
      c + countCreates ops < u64Size →
      Inv (c + countCreates ops) (runTrace s ops) ∧ GoodEvents c (events s ops)
  | [], s, c, inv, _ => ⟨inv, trivial⟩
  | Op.create req :: ops, s, c, inv, hb => by
    have hcc : countCreates (Op.create req :: ops) = countCreates ops + 1 := rfl
    have hc : 1 + c < u64Size := by rw [hcc] at hb; omega
    have inv1 : Inv (c + 1) ((create_note s req).1) := inv_create inv req hc
    have hb1 : (c + 1) + countCreates ops < u64Size := by rw [hcc] at hb; omega
    have ih := runTrace_inv ops ((create_note s req).1) (c + 1) inv1 hb1
    constructor
    · have harith : c + countCreates (Op.create req :: ops) = (c + 1) + countCreates ops := by
        rw [hcc]; omega
      rw [harith]
      exact ih.1
    · have hnid : s.nextId = 1 + c := by rw [inv.next_eq, Nat.mod_eq_of_lt hc]
      show GoodEvents c
        ([Event.created s.nextId] ++ events ((create_note s req).1) (ops))
      rw [hnid]
      exact ⟨Nat.add_comm 1 c, ih.2⟩
  | Op.update id req :: ops, s, c, inv, hb => by
    have inv1 : Inv c ((update_note id s req).1) :=
      inv_of_map_id_eq inv (update_note_state id s req).1 (update_note_state id s req).2
    have ih := runTrace_inv ops ((update_note id s req).1) c inv1 hb
    exact ⟨ih.1, ih.2⟩
  | Op.delete id :: ops, s, c, inv, hb => by
    have inv1 : Inv c ((remove_note id s).1) := inv_delete inv id
    have ih := runTrace_inv ops ((remove_note id s).1) c inv1 hb
    refine ⟨ih.1, ?_⟩
    have hop : opEvents s (Op.delete id) =
        if (s.notes.filter fun n => n.id ≠ id).length ≠ s.notes.length
        then [Event.deleted id] else [] := rfl
    show GoodEvents c (opEvents s (Op.delete id) ++ events ((remove_note id s).1) ops)
    rw [hop]
    split
    · next hcond =>
      obtain ⟨n, hn, hnid⟩ := exists_id_of_filter_length_ne hcond
      exact ⟨hnid ▸ inv.id_pos n hn, hnid ▸ inv.id_le n hn, ih.2⟩
    · exact ih.2

/-- In a well-formed event trace every created id exceeds the running create
count. -/
theorem goodEvents_created_gt :
    ∀ (evs : List Event) (c : Nat) (a : NoteId),
      GoodEvents c evs → Event.created a ∈ evs → c < a
  | [], _, _, _, hmem => absurd hmem (List.not_mem_nil _)
  | Event.created b :: rest, c, a, hg, hmem => by
    obtain ⟨hb, hrest⟩ := hg
    rcases List.mem_cons.mp hmem with h | h
    · cases h
      exact hb ▸ Nat.lt_succ_self c
    · exact Nat.lt_of_succ_lt (goodEvents_created_gt rest (c + 1) a hrest h)
  | Event.deleted j :: rest, c, a, hg, hmem => by
    obtain ⟨_, _, hrest⟩ := hg
    rcases List.mem_cons.mp hmem with h | h
    · exact Event.noConfusion h
    · exact goodEvents_created_gt rest c a hrest h

/-- In a well-formed event trace a create never hands out an id at or below
one that was deleted earlier. -/
theorem goodEvents_no_reuse :
    ∀ (evs : List Event) (c : Nat), GoodEvents c evs →
      ∀ i a, [Event.deleted i, Event.created a].Sublist evs → i < a
  | [], _, _, i, a, hsub => by cases hsub
  | Event.created b :: rest, c, hg, i, a, hsub => by
    obtain ⟨_, hrest⟩ := hg
    cases hsub with
    | cons x h => exact goodEvents_no_reuse rest (c + 1) hrest i a h
  | Event.deleted j :: rest, c, hg, i, a, hsub => by
    obtain ⟨_, hj, hrest⟩ := hg
    cases hsub with
    | cons x h => exact goodEvents_no_reuse rest c hrest i a h
    | cons₂ x h =>
      have hmem : Event.created a ∈ rest := List.singleton_sublist.mp h
      exact Nat.lt_of_le_of_lt hj (goodEvents_created_gt rest c a hrest hmem)

/-- Claim C2, amended: over every trace of Create, Update and Delete
operations from process start containing fewer than `2 ^ 64` creates, the
stored ids stay pairwise distinct and no id of a previously deleted note is
ever assigned to a later-created note.  (The bound is forced by the
wraparound of the `u64` counter, see `deleted_id_reused_counterexample`.) -/
theorem store_ids_distinct_and_never_reused (ops : List Op)
    (h : countCreates ops < u64Size) :
    ((runTrace initState ops).notes.map Note.id).Nodup ∧
    ∀ i, ¬ [Event.deleted i, Event.created i].Sublist (events initState ops) := by
  have h0 : (0 : Nat) + countCreates ops < u64Size := by
    rw [Nat.zero_add]
    exact h
  have hmain := runTrace_inv ops initState 0 inv_init h0
  refine ⟨hmain.1.nodup, ?_⟩
  intro i hsub
  exact absurd (goodEvents_no_reuse (events initState ops) 0 hmain.2 i i hsub)
    (lt_irrefl i)

/-- Witness for C2: a create, a delete of id 1, then another create; ids stay
distinct and id 1 is not handed out again. -/
theorem store_ids_distinct_and_never_reused_witness :
    countCreates [Op.create ⟨"a", ""⟩, Op.delete 1, Op.create ⟨"b", ""⟩] < u64Size ∧
    (((runTrace initState
        [Op.create ⟨"a", ""⟩, Op.delete 1, Op.create ⟨"b", ""⟩]).notes.map Note.id).Nodup ∧
      ∀ i, ¬ [Event.deleted i, Event.created i].Sublist
        (events initState [Op.create ⟨"a", ""⟩, Op.delete 1, Op.create ⟨"b", ""⟩])) :=
  ⟨by decide, store_ids_distinct_and_never_reused _ (by decide)⟩

/-- Counterexample to claim C2 as stated: in the trace that creates note 1,
deletes it, and then performs `2 ^ 64` further creates, the wrapped `u64`
counter reassigns the deleted id 1 to the last created note. -/
theorem deleted_id_reused_counterexample :
    [Event.deleted 1, Event.created 1].Sublist
      (events initState (Op.create ⟨"a", ""⟩ :: Op.delete 1 ::
        (List.replicate u64Size (⟨"a", ""⟩ : CreateNoteRequest)).map Op.create)) := by
  have hs1 : applyOp initState (Op.create ⟨"a", ""⟩) = ⟨[⟨1, "a", ""⟩], 2⟩ := by decide
  have hs2 : applyOp (⟨[⟨1, "a", ""⟩], 2⟩ : ServerState) (Op.delete 1) =
      ⟨[], 2⟩ := by decide
  have hev : events initState (Op.create ⟨"a", ""⟩ :: Op.delete 1 ::
      (List.replicate u64Size (⟨"a", ""⟩ : CreateNoteRequest)).map Op.create) =
      Event.created 1 :: Event.deleted 1 ::
        events (⟨[], 2⟩ : ServerState)
          ((List.replicate u64Size (⟨"a", ""⟩ : CreateNoteRequest)).map Op.create) := by
    show opEvents initState (Op.create ⟨"a", ""⟩) ++
      (opEvents (applyOp initState (Op.create ⟨"a", ""⟩)) (Op.delete 1) ++
        events (applyOp (applyOp initState (Op.create ⟨"a", ""⟩)) (Op.delete 1))
          ((List.replicate u64Size (⟨"a", ""⟩ : CreateNoteRequest)).map Op.create)) = _
    rw [hs1, hs2]
    rw [show opEvents initState (Op.create ⟨"a", ""⟩) = [Event.created 1] from rfl,
      show opEvents (⟨[⟨1, "a", ""⟩], 2⟩ : ServerState) (Op.delete 1) =
        [Event.deleted 1] from by decide]
    rfl
  have h2lt : (⟨[], 2⟩ : ServerState).nextId < u64Size := by
    show 2 < u64Size
    unfold u64Size
    norm_num
  rw [hev, events_creates _ _ h2lt, List.length_replicate]
  have hmem : Event.created 1 ∈ (List.range u64Size).map
      fun k => Event.created (((⟨[], 2⟩ : ServerState).nextId + k) % u64Size) := by
    rw [List.mem_map]
    have h1le : 1 ≤ u64Size := Nat.le_of_lt one_lt_u64Size
    refine ⟨u64Size - 1, List.mem_range.mpr (by omega), ?_⟩
    have harith : (⟨[], 2⟩ : ServerState).nextId + (u64Size - 1) = u64Size + 1 := by
      show 2 + (u64Size - 1) = u64Size + 1
      omega
    rw [harith, Nat.add_mod_left, Nat.mod_eq_of_lt one_lt_u64Size]
  apply List.Sublist.cons
  apply List.Sublist.cons₂
  exact List.singleton_sublist.mpr hmem

/-! ### C3: update — frame and error behaviour -/

/-- The scan misses exactly when no note carries the id. -/
theorem updateScan_eq_none (id : NoteId) (req : UpdateNoteRequest) :
    ∀ l : List Note, updateScan id req l = none ↔ ∀ n ∈ l, n.id ≠ id
  | [] => by simp [updateScan]
  | n0 :: ns => by
    by_cases h0 : n0.id = id
    · constructor
      · intro h
        simp [updateScan, if_pos h0] at h
      · intro hall
        exact absurd h0 (hall n0 (List.mem_cons_self n0 ns))
    · simp only [updateScan, if_neg h0, Option.map_eq_none']
      rw [updateScan_eq_none id req ns]
      constructor
      · intro hall m hm
        rcases List.mem_cons.mp hm with rfl | hm2
        · exact h0
        · exact hall m hm2
      · intro hall m hm
        exact hall m (List.mem_cons_of_mem n0 hm)

/-- When some note carries the id, the scan splits the store at the first
match and rewrites only that note. -/
theorem updateScan_found (id : NoteId) (req : UpdateNoteRequest) :
    ∀ l : List Note, (∃ n ∈ l, n.id = id) →
      ∃ l1 n l2, l = l1 ++ n :: l2 ∧ n.id = id ∧ (∀ m ∈ l1, m.id ≠ id) ∧
        updateScan id req l = some (l1 ++ applyUpdate req n :: l2)
  | [], h => absurd h (by simp)
  | n0 :: ns, h => by
    by_cases h0 : n0.id = id
    · exact ⟨[], n0, ns, rfl, h0, by simp, by simp [updateScan, if_pos h0]⟩
    · have hex : ∃ n ∈ ns, n.id = id := by
        obtain ⟨n, hn, hnid⟩ := h
        rcases List.mem_cons.mp hn with rfl | hn2
        · exact absurd hnid h0
        · exact ⟨n, hn2, hnid⟩
      obtain ⟨l1, n, l2, heq, hnid, hl1, hscan⟩ := updateScan_found id req ns hex
      refine ⟨n0 :: l1, n, l2, by rw [heq]; rfl, hnid, ?_, ?_⟩
      · intro m hm
        rcases List.mem_cons.mp hm with rfl | hm2
        · exact h0
        · exact hl1 m hm2
      · simp [updateScan, if_neg h0, hscan]

/-- Claim C3, amended: for every store state and every update request that
supplies at least one field, an update on id `i` answers 404 with the store
unchanged when no note carries `i`; when a note carries `i` it answers 204
and replaces exactly the supplied fields of the first such note, leaving its
id, its absent fields, every other note and the counter unchanged.  (The
restriction to requests with at least one field present is forced by the 422
fast path, see `update_empty_body_not_404_counterexample`.) -/
theorem update_note_spec (s : ServerState) (i : NoteId) (req : UpdateNoteRequest)
    (hreq : req.title ≠ none ∨ req.content ≠ none) :
    ((∀ n ∈ s.notes, n.id ≠ i) → update_note i s req = (s, ⟨404, none⟩)) ∧
    ((∃ n ∈ s.notes, n.id = i) →
      ∃ l1 n l2, s.notes = l1 ++ n :: l2 ∧ n.id = i ∧ (∀ m ∈ l1, m.id ≠ i) ∧
        update_note i s req =
          (⟨l1 ++ (⟨n.id, req.title.getD n.title, req.content.getD n.content⟩ : Note) :: l2,
            s.nextId⟩, ⟨204, none⟩)) := by
  have hnot : ¬ (req.title = none ∧ req.content = none) := by
    rcases hreq with h | h <;> exact fun hcon => absurd (by simp [hcon.1, hcon.2]) h
  constructor
  · intro hall
    unfold update_note
    rw [if_neg hnot, (updateScan_eq_none i req s.notes).mpr hall]
  · intro hex
    obtain ⟨l1, n, l2, heq, hnid, hl1, hscan⟩ := updateScan_found i req s.notes hex
    refine ⟨l1, n, l2, heq, hnid, hl1, ?_⟩
    unfold update_note
    rw [if_neg hnot, hscan, applyUpdate_eq]

/-- Witness for C3: updating the title of the only note rewrites exactly the
title. -/
theorem update_note_spec_witness :
    ((⟨some "x", none⟩ : UpdateNoteRequest).title ≠ none ∨
      (⟨some "x", none⟩ : UpdateNoteRequest).content ≠ none) ∧
    (((∀ n ∈ (⟨[⟨1, "a", "b"⟩], 2⟩ : ServerState).notes, n.id ≠ 1) →
        update_note 1 ⟨[⟨1, "a", "b"⟩], 2⟩ ⟨some "x", none⟩ =
          (⟨[⟨1, "a", "b"⟩], 2⟩, ⟨404, none⟩)) ∧
      ((∃ n ∈ (⟨[⟨1, "a", "b"⟩], 2⟩ : ServerState).notes, n.id = 1) →
        ∃ l1 n l2, (⟨[⟨1, "a", "b"⟩], 2⟩ : ServerState).notes = l1 ++ n :: l2 ∧
          n.id = 1 ∧ (∀ m ∈ l1, m.id ≠ 1) ∧
          update_note 1 ⟨[⟨1, "a", "b"⟩], 2⟩ ⟨some "x", none⟩ =
            (⟨l1 ++ (⟨n.id, (⟨some "x", none⟩ : UpdateNoteRequest).title.getD n.title,
                (⟨some "x", none⟩ : UpdateNoteRequest).content.getD n.content⟩ : Note) :: l2,
              (⟨[⟨1, "a", "b"⟩], 2⟩ : ServerState).nextId⟩, ⟨204, none⟩))) :=
  ⟨Or.inl (by decide), update_note_spec ⟨[⟨1, "a", "b"⟩], 2⟩ 1 ⟨some "x", none⟩
    (Or.inl (by decide))⟩

/-- Counterexample to claim C3 as stated: a `{}` body makes the handler
answer 422, not 404 on a missing id and not 204 on a present one. -/
theorem update_empty_body_not_404_counterexample :
    (∀ n ∈ (⟨[⟨1, "a", "b"⟩], 2⟩ : ServerState).notes, n.id ≠ 2) ∧
    update_note 2 ⟨[⟨1, "a", "b"⟩], 2⟩ ⟨none, none⟩ ≠
      ((⟨[⟨1, "a", "b"⟩], 2⟩ : ServerState), ⟨404, none⟩) ∧
    (∃ n ∈ (⟨[⟨1, "a", "b"⟩], 2⟩ : ServerState).notes, n.id = 1) ∧
    (update_note 1 ⟨[⟨1, "a", "b"⟩], 2⟩ ⟨none, none⟩).2.status = 422 := by
  refine ⟨by decide, by decide, ⟨⟨1, "a", "b"⟩, by decide, rfl⟩, by decide⟩

/-! ### C4: delete — success, failure, non-idempotence -/

/-- A delete of an id no stored note carries answers 404 and changes
nothing. -/
theorem remove_note_not_found {s : ServerState} {i : NoteId}
    (hall : ∀ n ∈ s.notes, n.id ≠ i) : remove_note i s = (s, ⟨404, none⟩) := by
  have hfe : s.notes.filter (fun n => n.id ≠ i) = s.notes :=
    List.filter_eq_self.mpr fun a ha => decide_eq_true (hall a ha)
  unfold remove_note
  rw [hfe]
  simp

/-- Under distinct stored ids, deleting a present id drops exactly one
note. -/
theorem filter_length_of_nodup :
    ∀ (l : List Note) (i : NoteId), (l.map Note.id).Nodup → (∃ n ∈ l, n.id = i) →
      (l.filter fun n => n.id ≠ i).length + 1 = l.length
  | [], _, _, hex => absurd hex (by simp)
  | n0 :: ns, i, hnd, hex => by
    rw [List.map_cons, List.nodup_cons] at hnd
    by_cases h0 : n0.id = i
    · have hall : ∀ m ∈ ns, (fun n : Note => decide (n.id ≠ i)) m = true := by
        intro m hm
        apply decide_eq_true
        intro hmi
        exact hnd.1 (h0 ▸ hmi ▸ List.mem_map_of_mem Note.id hm)
      have hdrop : (n0 :: ns).filter (fun n => n.id ≠ i) =
          ns.filter fun n => n.id ≠ i := by
        simp [List.filter_cons, h0]
      rw [hdrop, List.filter_eq_self.mpr hall, List.length_cons]
    · have hkeep : (n0 :: ns).filter (fun n => n.id ≠ i) =
          n0 :: ns.filter fun n => n.id ≠ i := by
        simp [List.filter_cons, h0]
      have hex2 : ∃ n ∈ ns, n.id = i := by
        obtain ⟨n, hn, hnid⟩ := hex
        rcases List.mem_cons.mp hn with rfl | hn2
        · exact absurd hnid h0
        · exact ⟨n, hn2, hnid⟩
      rw [hkeep, List.length_cons, List.length_cons,
        ← filter_length_of_nodup ns i hnd.2 hex2]

/-- Claim C4: in a store with pairwise distinct ids, deleting a present id
removes exactly that one note and answers 204; deleting an absent id answers
404 and changes nothing; and a second delete of the same id right after a
successful one answers 404. -/
theorem remove_note_spec (s : ServerState) (i : NoteId)
    (hnd : (s.notes.map Note.id).Nodup) :
    ((∃ n ∈ s.notes, n.id = i) →
      (remove_note i s).2 = ⟨204, none⟩ ∧
      (remove_note i s).1.notes.length + 1 = s.notes.length ∧
      (remove_note i s).1.notes = s.notes.filter fun n => n.id ≠ i) ∧
    ((∀ n ∈ s.notes, n.id ≠ i) → remove_note i s = (s, ⟨404, none⟩)) ∧
    ((∃ n ∈ s.notes, n.id = i) →
      (remove_note i (remove_note i s).1).2 = ⟨404, none⟩) := by
  refine ⟨?_, fun hall => remove_note_not_found hall, ?_⟩
  · intro hex
    have hlen := filter_length_of_nodup s.notes i hnd hex
    have hne : (s.notes.filter fun n => n.id ≠ i).length ≠ s.notes.length := by omega
    unfold remove_note
    rw [if_pos hne]
    exact ⟨rfl, hlen, rfl⟩
  · intro hex
    have hlen := filter_length_of_nodup s.notes i hnd hex
    have hne : (s.notes.filter fun n => n.id ≠ i).length ≠ s.notes.length := by omega
    have h1 : (remove_note i s).1.notes = s.notes.filter fun n => n.id ≠ i := by
      unfold remove_note
      rw [if_pos hne]
    have hall2 : ∀ n ∈ (remove_note i s).1.notes, n.id ≠ i := by
      rw [h1]
      intro n hn
      exact of_decide_eq_true (List.mem_filter.mp hn).2
    rw [remove_note_not_found hall2]

/-- Witness for C4: deleting the only note succeeds, deleting again answers
404. -/
theorem remove_note_spec_witness :
    (((⟨[⟨1, "a", "b"⟩], 2⟩ : ServerState).notes.map Note.id).Nodup) ∧
    (((∃ n ∈ (⟨[⟨1, "a", "b"⟩], 2⟩ : ServerState).notes, n.id = 1) →
      (remove_note 1 ⟨[⟨1, "a", "b"⟩], 2⟩).2 = ⟨204, none⟩ ∧
      (remove_note 1 ⟨[⟨1, "a", "b"⟩], 2⟩).1.notes.length + 1 =
        (⟨[⟨1, "a", "b"⟩], 2⟩ : ServerState).notes.length ∧
      (remove_note 1 ⟨[⟨1, "a", "b"⟩], 2⟩).1.notes =
        (⟨[⟨1, "a", "b"⟩], 2⟩ : ServerState).notes.filter fun n => n.id ≠ 1) ∧
    ((∀ n ∈ (⟨[⟨1, "a", "b"⟩], 2⟩ : ServerState).notes, n.id ≠ 1) →
      remove_note 1 ⟨[⟨1, "a", "b"⟩], 2⟩ = (⟨[⟨1, "a", "b"⟩], 2⟩, ⟨404, none⟩)) ∧
    ((∃ n ∈ (⟨[⟨1, "a", "b"⟩], 2⟩ : ServerState).notes, n.id = 1) →
      (remove_note 1 (remove_note 1 ⟨[⟨1, "a", "b"⟩], 2⟩).1).2 = ⟨404, none⟩)) :=
  ⟨by decide, remove_note_spec ⟨[⟨1, "a", "b"⟩], 2⟩ 1 (by decide)⟩

/-! ### C5: empty update body -/

/-- Claim C5: an update whose body supplies neither field answers 422 with no
body and leaves every store unchanged — the rejection precedes the store
lookup, so it does not depend on whether the id exists. -/
theorem update_note_empty_body (s : ServerState) (i : NoteId) :
    update_note i s ⟨none, none⟩ = (s, ⟨422, none⟩) := rfl

/-! ### C6: create/list round trip -/

/-- Claim C6: a create followed by a list shows a note whose title and
content are exactly the submitted values, and an omitted content defaults to
the empty string. -/
theorem create_then_list_roundtrip (s : ServerState) (title : String)
    (content? : Option String) :
    (∃ l, (list_notes (create_note s (CreateNoteRequest.ofParts title content?)).1).2.body =
        some (ResponseBody.notes l) ∧
      ∃ r ∈ l, r.title = title ∧ r.content = content?.getD "") ∧
    (CreateNoteRequest.ofParts title none).content = "" := by
  refine ⟨⟨_, rfl, ?_⟩, rfl⟩
  refine ⟨⟨s.nextId, title, content?.getD ""⟩, ?_, rfl, rfl⟩
  show (⟨s.nextId, title, content?.getD ""⟩ : NoteResponse) ∈
    (s.notes ++ [(⟨s.nextId, title, content?.getD ""⟩ : Note)]).map
      fun n => (⟨n.id, n.title, n.content⟩ : NoteResponse)
  rw [List.map_append]
  exact List.mem_append_right _ (by simp)

/-! ### C7: delete frame -/

/-- Claim C7: a delete keeps the remaining notes exactly as they were — a
sublist of the old store, so ids, titles, contents and relative order are
untouched — keeps every note whose id differs from the deleted one, and does
not reset the `NEXT_NOTE_ID` counter. -/
theorem remove_note_frame (s : ServerState) (i : NoteId) :
    (remove_note i s).1.nextId = s.nextId ∧
    (remove_note i s).1.notes.Sublist s.notes ∧
    ∀ n ∈ s.notes, n.id ≠ i → n ∈ (remove_note i s).1.notes := by
  unfold remove_note
  split
  · refine ⟨rfl, List.filter_sublist s.notes, ?_⟩
    intro n hn hni
    exact List.mem_filter.mpr ⟨hn, decide_eq_true hni⟩
  · exact ⟨rfl, List.Sublist.refl s.notes, fun n hn _ => hn⟩

/-! ### C8: list is a faithful read-only snapshot -/

/-- Claim C8: a list answers 200 with every stored note, in store order and
with its id, title and content, changes nothing, and has no failure case;
the store order is insertion order, since a create appends at the end. -/
theorem list_notes_spec (s : ServerState) :
    (list_notes s).1 = s ∧
    (list_notes s).2 =
      ⟨200, some (ResponseBody.notes (s.notes.map fun n => ⟨n.id, n.title, n.content⟩))⟩ ∧
    ∀ req : CreateNoteRequest,
      (list_notes (create_note s req).1).2.body =
        some (ResponseBody.notes
          ((s.notes.map fun n => (⟨n.id, n.title, n.content⟩ : NoteResponse)) ++
            [(⟨s.nextId, req.title, req.content⟩ : NoteResponse)])) := by
  refine ⟨rfl, rfl, ?_⟩
  intro req
  show some (ResponseBody.notes ((s.notes ++
      [(⟨s.nextId, req.title, req.content⟩ : Note)]).map fun n => ⟨n.id, n.title, n.content⟩)) = _
  rw [List.map_append]
  rfl

/-! ### C9, C10: id-segment parsing and routing -/

/-- The digit fold only grows the accumulator. -/
theorem foldl_digits_le :
    ∀ (ds : List Char) (acc : Nat),
      acc ≤ ds.foldl (fun a c => a * 10 + (c.toNat - 48)) acc
  | [], _ => Nat.le_refl _
  | c :: cs, acc => by
    have h1 : acc ≤ acc * 10 + (c.toNat - 48) := by
      calc acc = acc * 1 := (Nat.mul_one acc).symm
        _ ≤ acc * 10 := Nat.mul_le_mul_left acc (by norm_num)
        _ ≤ acc * 10 + (c.toNat - 48) := Nat.le_add_right _ _
    exact Nat.le_trans h1 (foldl_digits_le cs (acc * 10 + (c.toNat - 48)))

/-- The digit loop succeeds exactly on all-digit input whose value fits. -/
theorem parseDigits_isSome :
    ∀ (ds : List Char) (acc : Nat), acc < u64Size →
      (parseDigits acc ds).isSome =
        (ds.all Char.isDigit &&
          decide (ds.foldl (fun a c => a * 10 + (c.toNat - 48)) acc < u64Size))
  | [], acc, h => by
    simp [parseDigits, h]
  | c :: cs, acc, h => by
    by_cases hd : c.isDigit
    · by_cases hov : acc * 10 + (c.toNat - 48) < u64Size
      · have ih := parseDigits_isSome cs (acc * 10 + (c.toNat - 48)) hov
        simp only [parseDigits, pushDigit, if_pos hd, if_pos hov, List.all_cons, hd,
          Bool.true_and, List.foldl_cons]
        exact ih
      · have hge : u64Size ≤ cs.foldl (fun a c => a * 10 + (c.toNat - 48))
            (acc * 10 + (c.toNat - 48)) :=
          Nat.le_trans (Nat.le_of_not_lt hov) (foldl_digits_le cs _)
        simp only [parseDigits, pushDigit, if_pos hd, if_neg hov, List.all_cons, hd,
          Bool.true_and, List.foldl_cons]
        rw [decide_eq_false (Nat.not_lt.mpr hge)]
        simp
    · simp [parseDigits, pushDigit, hd]

/-- `NoteId::from_str` succeeds exactly on the segments `isU64Segment`
describes. -/
theorem fromStr_isSome_eq (t : String) :
    (NoteId.fromStr t).isSome = isU64Segment t := by
  unfold NoteId.fromStr u64FromStr isU64Segment digitsToNat
  by_cases he : (stripPlus t).isEmpty
  · simp [he]
  · rw [if_neg (by simp [he]), parseDigits_isSome (stripPlus t) 0 u64Size_pos]
    simp [he]

/-- A segment outside `isU64Segment` does not parse. -/
theorem fromStr_eq_none_of (t : String) (h : isU64Segment t = false) :
    NoteId.fromStr t = none := by
  have hs := fromStr_isSome_eq t
  cases hv : NoteId.fromStr t with
  | none => rfl
  | some v =>
    rw [hv, h] at hs
    simp at hs

/-- Claim C9, amended: NoteId parsing succeeds exactly when the segment is,
after an optional leading `'+'`, a nonempty run of decimal digits whose value
fits in a `u64`; and a PATCH or DELETE request whose id segment does not
parse falls through to the unmatched-route handler and is answered with 404.
(The first part is amended from "a valid non-negative integer", see
`noteId_parse_counterexample`.) -/
theorem noteId_parse_and_unmatched_route (s : ServerState) (seg : String)
    (req : UpdateNoteRequest) (h : NoteId.fromStr seg = none) :
    (∀ t : String, (NoteId.fromStr t).isSome = isU64Segment t) ∧
    route s ⟨Method.patch, ["notes", seg], RequestBody.updateBody req⟩ =
      (s, ⟨404, none⟩) ∧
    route s ⟨Method.delete, ["notes", seg], RequestBody.empty⟩ = (s, ⟨404, none⟩) := by
  refine ⟨fromStr_isSome_eq, ?_, ?_⟩
  · show (match NoteId.fromStr seg with
      | some id => update_note id s req
      | none => (s, ⟨404, none⟩)) = (s, ⟨404, none⟩)
    rw [h]
  · show (match NoteId.fromStr seg with
      | some id => remove_note id s
      | none => (s, ⟨404, none⟩)) = (s, ⟨404, none⟩)
    rw [h]

/-- Witness for C9: the segment `"abc"` does not parse and both routes answer
404. -/
theorem noteId_parse_and_unmatched_route_witness :
    NoteId.fromStr "abc" = none ∧
    ((∀ t : String, (NoteId.fromStr t).isSome = isU64Segment t) ∧
      route initState ⟨Method.patch, ["notes", "abc"], RequestBody.updateBody ⟨none, none⟩⟩ =
        (initState, ⟨404, none⟩) ∧
      route initState ⟨Method.delete, ["notes", "abc"], RequestBody.empty⟩ =
        (initState, ⟨404, none⟩)) :=
  ⟨by decide, noteId_parse_and_unmatched_route initState "abc" ⟨none, none⟩ (by decide)⟩

/-- Counterexample to claim C9 as stated: parsing does not succeed exactly on
the plain non-negative decimal integer segments — `"+7"` is accepted though
it is no plain digit string, and `"18446744073709551616"` (that is, `2 ^ 64`)
is a plain digit string though parsing rejects it. -/
theorem noteId_parse_counterexample :
    NoteId.fromStr "+7" = some 7 ∧ isNonNegIntegerString "+7" = false ∧
    isNonNegIntegerString "18446744073709551616" = true ∧
    NoteId.fromStr "18446744073709551616" = none :=
  ⟨by decide, by decide, by decide, by decide⟩

/-- Claim C10: the id parser accepts a leading `'+'` — `"+7"` parses to id 7,
so PATCH and DELETE on `/notes/+7` address the note with id 7 — and rejects
every segment whose digits denote a value that does not fit in a `u64`. -/
theorem noteId_plus_sign_and_overflow (s : ServerState) (req : UpdateNoteRequest)
    (t : String) (h1 : (stripPlus t).all Char.isDigit = true)
    (h2 : u64Size ≤ digitsToNat (stripPlus t)) :
    NoteId.fromStr "+7" = some 7 ∧
    route s ⟨Method.patch, ["notes", "+7"], RequestBody.updateBody req⟩ =
      update_note 7 s req ∧
    route s ⟨Method.delete, ["notes", "+7"], RequestBody.empty⟩ = remove_note 7 s ∧
    NoteId.fromStr t = none := by
  refine ⟨by decide, ?_, ?_, ?_⟩
  · show (match NoteId.fromStr "+7" with
      | some id => update_note id s req
      | none => (s, ⟨404, none⟩)) = update_note 7 s req
    rw [show NoteId.fromStr "+7" = some 7 from by decide]
  · show (match NoteId.fromStr "+7" with
      | some id => remove_note id s
      | none => (s, ⟨404, none⟩)) = remove_note 7 s
    rw [show NoteId.fromStr "+7" = some 7 from by decide]
  · apply fromStr_eq_none_of
    unfold isU64Segment
    rw [h1, decide_eq_false (Nat.not_lt.mpr h2)]
    simp

/-- Witness for C10: `2 ^ 64` itself, written in decimal, is rejected. -/
theorem noteId_plus_sign_and_overflow_witness :
    (stripPlus "18446744073709551616").all Char.isDigit = true ∧
    u64Size ≤ digitsToNat (stripPlus "18446744073709551616") ∧
    (NoteId.fromStr "+7" = some 7 ∧
      route initState ⟨Method.patch, ["notes", "+7"],
          RequestBody.updateBody ⟨some "x", none⟩⟩ =
        update_note 7 initState ⟨some "x", none⟩ ∧
      route initState ⟨Method.delete, ["notes", "+7"], RequestBody.empty⟩ =
        remove_note 7 initState ∧
      NoteId.fromStr "18446744073709551616" = none) :=
  ⟨by decide, by decide,
    noteId_plus_sign_and_overflow initState ⟨some "x", none⟩ "18446744073709551616"
      (by decide) (by decide)⟩

end NoteService
